import Mathlib

/-!
# Verification of the encrypted-json-editor store engine

Shallow embedding of the engine in `src/main.rs`: password-based key
derivation (`derive_key`), authenticated encryption / decryption of the
document (`encrypt_data`, `decrypt_data`), the login driver (`try_login`),
and the in-memory document mutations (`add_new_entry`, the editor's
value edit, and the delete dialog's `remove`).

Modelling conventions:
* `HashMap<String, String>` is modelled as an association list in which
  `insert` replaces any existing binding for the key and `remove` filters
  the key out; map equality is list equality (the embedding's inserts keep
  at most one binding per key).
* The cryptographic primitives are modelled symbolically: Argon2 key
  derivation is the injective pairing of password and salt (deterministic,
  collision-free, always producing a 32-byte key, as §4.1 of the design
  requires); AES-256-GCM encryption is a constructor recording the key,
  the nonce and the plaintext, and decryption opens it exactly when the
  supplied key matches, failing on every other byte string (the tag check
  of an AEAD, idealised).
* base64 is modelled as a tagged injective text encoding: a container file
  is either the valid encoding of some decoded byte content or malformed
  text on which decoding fails.
* `serde_json` serialization of `AppData` is modelled symbolically as an
  injective constructor `PText.ofData`; any other plaintext fails to parse.
  `String::from_utf8` cannot fail on these plaintexts (they are `String`s
  in the source) and is omitted.
* File I/O is modelled as reliable: reads of present files and writes
  succeed. Randomness (`OsRng`) is modelled by a counter threaded through
  the operations; a fresh salt or nonce consumes one counter value.
* Error values are Rust `String`s; the source's hard-coded messages
  (`"Beschädigte Datendatei"`, `"Falsches Passwort"`) are kept verbatim,
  while messages produced by `e.to_string()` of library errors are fixed
  placeholder strings (no claim depends on their exact text).
-/

/-- The persisted document: `struct AppData { items: HashMap<String, String> }`
(main.rs:19-22), modelled with an association list. -/
structure AppData where
  items : List (String × String)
deriving DecidableEq, Repr

/-- `impl Default for AppData` (main.rs:24-29): the empty map. -/
def AppData.default : AppData := ⟨[]⟩

/-- `HashMap::insert(k, v)`: replace any existing binding for `k`,
otherwise add the binding. -/
def mapInsert (items : List (String × String)) (k v : String) :
    List (String × String) :=
  (k, v) :: items.filter (fun p => p.1 ≠ k)

/-- `HashMap::remove(&k)`: drop the binding for `k` if present (main.rs:335). -/
def mapRemove (items : List (String × String)) (k : String) :
    List (String × String) :=
  items.filter (fun p => p.1 ≠ k)

/-- `self.data.items[&key]` / map lookup. -/
def mapGet (items : List (String × String)) (k : String) : Option String :=
  (items.find? (fun p => p.1 = k)).map (fun p => p.2)

/-- A derived key. `derive_key` (main.rs:127-141) feeds password and salt
to Argon2 and takes the first 32 bytes of the hash; symbolically the key
is the (password, salt) pair, making derivation deterministic and
collision-free. -/
structure DKey where
  password : String
  salt : List Nat
deriving DecidableEq, Repr

/-- `App::derive_key(password, salt)` (main.rs:127-141). In the source it
can fail only if the Argon2 primitive rejects the salt encoding or yields
fewer than 32 bytes; for the 16-byte salts of this store it always
succeeds, so the model returns `ok` unconditionally while keeping the
`Result` shape. -/
def derive_key (password : String) (salt : List Nat) : Except String DKey :=
  .ok ⟨password, salt⟩

/-- A plaintext byte string handed to the cipher: either the canonical
`serde_json::to_string` of a document (main.rs:144) or some other string
(which `serde_json::from_str` rejects). -/
inductive PText
  | ofData (d : AppData)
  | raw (s : String)
deriving DecidableEq, Repr

/-- `serde_json::from_str::<AppData>` (main.rs:186): parses exactly the
canonical serialization of a document. -/
def parse_json : PText → Except String AppData
  | .ofData d => .ok d
  | .raw _ => .error "invalid JSON"

/-- Decoded container content, i.e. the byte vector obtained by
base64-decoding the container file: either arbitrary concrete bytes, or
`nonce(12 bytes) ++ ciphertext-with-tag` as written by `encrypt_data`
(main.rs:159-160); the symbolic ciphertext records key, nonce and
plaintext. -/
inductive ContData
  | bytes (bs : List Nat)
  | enc (key : DKey) (nonce : Nat) (pt : PText)
deriving DecidableEq, Repr

/-- `encrypted_data.len() < 12` (main.rs:174): a container written by
`encrypt_data` always holds the 12-byte nonce plus a ciphertext carrying
a 16-byte tag, so only concrete byte content can be undersized. -/
def contShort : ContData → Bool
  | .bytes bs => bs.length < 12
  | .enc _ _ _ => false

/-- `cipher.decrypt(nonce, ciphertext)` (main.rs:182-183) after
`split_at(12)`: the nonce is the one read from the container itself, so
the AEAD opens exactly when the derived key matches the encryption key;
on concrete bytes not produced by `encrypt` the tag check fails. -/
def aeadOpen (key : DKey) : ContData → Option PText
  | .bytes _ => none
  | .enc k _ pt => if k = key then some pt else none

/-- The container file's text content: either valid base64 of some decoded
content, or malformed text. -/
inductive ContFile
  | b64 (d : ContData)
  | bad (s : String)
deriving DecidableEq, Repr

/-- `base64::decode(encoded_data.trim())` (main.rs:173). -/
def b64decode : ContFile → Except String ContData
  | .b64 d => .ok d
  | .bad _ => .error "invalid base64"

/-- The persisted state: `salt.txt` (raw bytes, `None` = absent) and
`data.enc` (text, `None` = absent). -/
structure Fs where
  saltFile : Option (List Nat)
  encFile : Option ContFile
deriving DecidableEq, Repr

/-- `OsRng.fill_bytes(&mut salt)` for a `[u8; 16]` (main.rs:148-149):
sampling a fresh 16-byte salt from the RNG counter. -/
def genSalt (seed : Nat) : List Nat :=
  (List.range 16).map (fun i => (seed + i) % 256)

/-- `App::encrypt_data` (main.rs:143-164): serialize the document, read
the salt file (generating and persisting a fresh salt only if the file is
absent), derive the key, encrypt under a fresh nonce, and overwrite the
container file with base64 of `nonce ++ ciphertext`. Returns the
`Result<(), String>` alongside the updated file state and RNG counter. -/
def encrypt_data (data : AppData) (password : String) (fs : Fs) (rng : Nat) :
    Except String Unit × Fs × Nat :=
  let json_data : PText := .ofData data
  let saltStep : List Nat × Fs × Nat :=
    match fs.saltFile with
    | some s => (s, fs, rng)
    | none =>
        let s := genSalt rng
        (s, { fs with saltFile := some s }, rng + 1)
  match derive_key password saltStep.1 with
  | .error e => (.error e, saltStep.2.1, saltStep.2.2)
  | .ok key =>
      let nonce := saltStep.2.2
      let ct : ContFile := .b64 (.enc key nonce json_data)
      (.ok (), { saltStep.2.1 with encFile := some ct }, saltStep.2.2 + 1)

/-- `App::decrypt_data` (main.rs:166-188): if no container file exists,
reset the document to the default and persist it via `encrypt_data`
(first run); otherwise read the container, base64-decode it, reject
contents shorter than the 12-byte nonce, read the salt file, derive the
key, split off the nonce, attempt authenticated decryption (mapping any
cipher failure to `"Falsches Passwort"`), and parse the plaintext into
the document. Returns the `Result<(), String>` alongside the document
(`self.data` after the call), file state and RNG counter. -/
def decrypt_data (password : String) (data : AppData) (fs : Fs) (rng : Nat) :
    Except String Unit × AppData × Fs × Nat :=
  match fs.encFile with
  | none =>
      let data1 := AppData.default
      let r := encrypt_data data1 password fs rng
      (r.1.map (fun _ => ()), data1, r.2.1, r.2.2)
  | some cf =>
      match b64decode cf with
      | .error e => (.error e, data, fs, rng)
      | .ok cd =>
          if contShort cd then (.error "Beschädigte Datendatei", data, fs, rng)
          else
            match fs.saltFile with
            | none => (.error "salt file unreadable", data, fs, rng)
            | some salt =>
                match derive_key password salt with
                | .error e => (.error e, data, fs, rng)
                | .ok key =>
                    match aeadOpen key cd with
                    | none => (.error "Falsches Passwort", data, fs, rng)
                    | some pt =>
                        match parse_json pt with
                        | .error e => (.error e, data, fs, rng)
                        | .ok d => (.ok (), d, fs, rng)

/-- The screens of the app (main.rs:31-34). -/
inductive Screen
  | passwordInput
  | editor
deriving DecidableEq, Repr

/-- The fields of `App` that `try_login` touches (main.rs:75-101):
current screen, typed password, document, and error message. -/
structure LoginSt where
  screen : Screen
  password : String
  data : AppData
  error_message : String
deriving DecidableEq, Repr

/-- `App::try_login` (main.rs:190-209): attempt `decrypt_data`; on success
switch to the editor and clear the error message, on failure record the
message and clear the attempted password. (Toast and shake animation are
presentation state, not modelled.) -/
def try_login (s : LoginSt) (fs : Fs) (rng : Nat) : LoginSt × Fs × Nat :=
  let r := decrypt_data s.password s.data fs rng
  match r.1 with
  | .ok _ =>
      ({ s with screen := .editor, data := r.2.1, error_message := "" },
        r.2.2.1, r.2.2.2)
  | .error e =>
      ({ s with data := r.2.1, error_message := e, password := "" },
        r.2.2.1, r.2.2.2)

/-- The fields of `App` that `add_new_entry` touches: the document and the
add-form inputs. -/
structure AddFormSt where
  data : AppData
  new_key : String
  new_value : String
deriving DecidableEq, Repr

/-- `str::trim` as used at main.rs:221 and 603: strip leading and
trailing whitespace characters. (Lean's own `String.trim` is not used
because its implementation does not reduce in the kernel.) -/
def rustTrim (s : String) : String :=
  String.mk (((s.data.dropWhile Char.isWhitespace).reverse.dropWhile
    Char.isWhitespace).reverse)

/-- `App::add_new_entry` (main.rs:220-234): if the trimmed key is
non-empty, insert `(new_key, new_value)` (the untrimmed key) into the
document and clear the form; otherwise do nothing. (The toast is
presentation state, not modelled.) -/
def add_new_entry (s : AddFormSt) : AddFormSt :=
  if ¬(rustTrim s.new_key).isEmpty then
    { data := ⟨mapInsert s.data.items s.new_key s.new_value⟩,
      new_key := "", new_value := "" }
  else s

/-- The editor's in-place value edit (main.rs:771-773): on a changed text
field, `self.data.items.insert(key.clone(), value)` where `key` is an
existing key of the document. -/
def edit_entry_value (d : AppData) (k v : String) : AppData :=
  ⟨mapInsert d.items k v⟩

/-- The delete dialog's confirmed branch (main.rs:334-336):
`self.data.items.remove(&key)`. -/
def remove_entry (d : AppData) (k : String) : AppData :=
  ⟨mapRemove d.items k⟩

/-- A sequence of `save` operations (each a document and a password)
applied to a file state: iterated `encrypt_data`, discarding results. -/
def saveSeq : List (AppData × String) → Fs → Nat → Fs × Nat
  | [], fs, rng => (fs, rng)
  | (d, p) :: rest, fs, rng =>
      let r := encrypt_data d p fs rng
      saveSeq rest r.2.1 r.2.2

/-- The document invariant of §3: every key is non-empty after trimming. -/
def keysTrimNonempty (d : AppData) : Prop :=
  ∀ p ∈ d.items, ¬(rustTrim p.1).isEmpty

instance (d : AppData) : Decidable (keysTrimNonempty d) :=
  inferInstanceAs (Decidable (∀ p ∈ d.items, ¬(rustTrim p.1).isEmpty))

/-! ## Basic lemmas about the embedding -/

/-- `encrypt_data` never fails in the model: key derivation, encryption
and the file writes are total. -/
theorem encrypt_data_ok (d : AppData) (p : String) (fs : Fs) (rng : Nat) :
    (encrypt_data d p fs rng).1 = .ok () := by
  obtain ⟨sf, ef⟩ := fs
  cases sf <;> simp [encrypt_data, derive_key]

/-- `encrypt_data` leaves an existing salt file untouched. -/
theorem encrypt_data_salt_frame (d : AppData) (p : String) (fs : Fs)
    (rng : Nat) (s : List Nat) (h : fs.saltFile = some s) :
    ((encrypt_data d p fs rng).2.1).saltFile = some s := by
  obtain ⟨sf, ef⟩ := fs
  cases sf with
  | none => simp at h
  | some s0 =>
      simp only [Option.some.injEq] at h
      subst h
      simp [encrypt_data, derive_key]

/-- The file and RNG state produced by `encrypt_data` with an existing
salt file, written out. -/
theorem encrypt_data_eq_of_salt (d : AppData) (p : String) (s : List Nat)
    (ef : Option ContFile) (rng : Nat) :
    encrypt_data d p ⟨some s, ef⟩ rng =
      (.ok (), ⟨some s, some (.b64 (.enc ⟨p, s⟩ rng (.ofData d)))⟩, rng + 1) := by
  simp [encrypt_data, derive_key]

/-- The file and RNG state produced by `encrypt_data` with no salt file:
a fresh salt is generated and persisted first. -/
theorem encrypt_data_eq_of_no_salt (d : AppData) (p : String)
    (ef : Option ContFile) (rng : Nat) :
    encrypt_data d p ⟨none, ef⟩ rng =
      (.ok (), ⟨some (genSalt rng),
        some (.b64 (.enc ⟨p, genSalt rng⟩ (rng + 1) (.ofData d)))⟩, rng + 2) := by
  simp [encrypt_data, derive_key]

/-- Unlocking a consistent store (salt file present, container encrypted
under the key derived from that salt) with the encrypting password
succeeds and returns the encrypted document. -/
theorem decrypt_data_eq_of_match (p : String) (D0 d : AppData)
    (s : List Nat) (n : Nat) (rng : Nat) :
    decrypt_data p D0 ⟨some s, some (.b64 (.enc ⟨p, s⟩ n (.ofData d)))⟩ rng =
      (.ok (), d, ⟨some s, some (.b64 (.enc ⟨p, s⟩ n (.ofData d)))⟩, rng) := by
  simp [decrypt_data, b64decode, contShort, derive_key, aeadOpen, parse_json]

/-! ## Claim theorems -/

/-- C1: for every document `D` and password `P`, saving `D` under `P`
(`encrypt_data`: serialize, derive the key from `P` and the persisted
salt, encrypt under a fresh nonce, write the base64 container) and then
unlocking with the same password (`decrypt_data`) succeeds and yields a
document equal to `D`, from any starting file state and any in-memory
document `D0` at unlock time. -/
theorem save_unlock_roundtrip (D D0 : AppData) (P : String) (fs : Fs) (rng : Nat) :
    (encrypt_data D P fs rng).1 = .ok () ∧
    (decrypt_data P D0 (encrypt_data D P fs rng).2.1
        (encrypt_data D P fs rng).2.2).1 = .ok () ∧
    (decrypt_data P D0 (encrypt_data D P fs rng).2.1
        (encrypt_data D P fs rng).2.2).2.1 = D := by
  obtain ⟨sf, ef⟩ := fs
  cases sf with
  | none =>
      rw [encrypt_data_eq_of_no_salt]
      simp [decrypt_data_eq_of_match]
  | some s =>
      rw [encrypt_data_eq_of_salt]
      simp [decrypt_data_eq_of_match]

/-- C2: unlocking a store whose container was persisted under password
`P` (its ciphertext is encrypted under the key derived from `P` and the
persisted salt) with any password `Pbad ≠ P` fails with the
authentication error and never yields a decoded document: the derived
key differs, so the AEAD tag check rejects. -/
theorem wrong_password_rejected (P Pbad : String) (salt : List Nat)
    (nonce : Nat) (pt : PText) (D0 : AppData) (rng : Nat) (hne : Pbad ≠ P) :
    decrypt_data Pbad D0 ⟨some salt, some (.b64 (.enc ⟨P, salt⟩ nonce pt))⟩ rng =
      (.error "Falsches Passwort", D0,
        ⟨some salt, some (.b64 (.enc ⟨P, salt⟩ nonce pt))⟩, rng) := by
  have hk : (⟨P, salt⟩ : DKey) ≠ ⟨Pbad, salt⟩ := by
    intro h
    injection h with h1 h2
    exact hne h1.symm
  simp [decrypt_data, b64decode, contShort, derive_key, aeadOpen, hk]

/-- Witness for C2 at concrete inputs. -/
theorem wrong_password_rejected_witness :
    decrypt_data "b" AppData.default
        ⟨some [0], some (.b64 (.enc ⟨"a", [0]⟩ 7 (.ofData AppData.default)))⟩ 0 =
      (.error "Falsches Passwort", AppData.default,
        ⟨some [0], some (.b64 (.enc ⟨"a", [0]⟩ 7 (.ofData AppData.default)))⟩, 0) :=
  wrong_password_rejected "a" "b" [0] 7 (.ofData AppData.default)
    AppData.default 0 (by decide)

/-- Every failing run of `decrypt_data` leaves the file state and the RNG
counter exactly as they were: all error paths return before any write. -/
theorem decrypt_data_err_frame (password : String) (data : AppData)
    (fs : Fs) (rng : Nat) (e : String)
    (h : (decrypt_data password data fs rng).1 = .error e) :
    (decrypt_data password data fs rng).2.2 = (fs, rng) := by
  obtain ⟨sf, ef⟩ := fs
  cases ef with
  | none =>
      exfalso
      cases sf <;>
        simp [decrypt_data, encrypt_data, derive_key, Except.map] at h
  | some cf =>
      cases cf with
      | bad s => simp [decrypt_data, b64decode]
      | b64 cd =>
          cases cd with
          | bytes bs =>
              by_cases hlen : bs.length < 12
              · simp [decrypt_data, b64decode, contShort, hlen]
              · cases sf <;>
                  simp [decrypt_data, b64decode, contShort, derive_key,
                    aeadOpen, hlen]
          | enc k n pt =>
              cases sf with
              | none => simp [decrypt_data, b64decode, contShort]
              | some salt =>
                  by_cases hk : k = (⟨password, salt⟩ : DKey)
                  · cases pt with
                    | ofData d =>
                        exfalso
                        simp [decrypt_data, b64decode, contShort, derive_key,
                          aeadOpen, parse_json, hk] at h
                    | raw s =>
                        simp [decrypt_data, b64decode, contShort, derive_key,
                          aeadOpen, parse_json, hk]
                  · simp [decrypt_data, b64decode, contShort, derive_key,
                      aeadOpen, hk]

/-- C3: whenever the unlock attempt (`decrypt_data`, invoked via
`try_login`) fails — from any starting app state, file state and RNG —
the persisted state (salt file and container file) and the RNG counter
are exactly what they were before the call, and `try_login` clears the
attempted password. -/
theorem unlock_error_preserves_state (s : LoginSt) (fs : Fs) (rng : Nat)
    (e : String)
    (h : (decrypt_data s.password s.data fs rng).1 = .error e) :
    (try_login s fs rng).2.1 = fs ∧ (try_login s fs rng).2.2 = rng ∧
    (try_login s fs rng).1.password = "" := by
  have hframe := decrypt_data_err_frame s.password s.data fs rng e h
  rw [Prod.ext_iff] at hframe
  simp only [try_login, h]
  exact ⟨hframe.1, hframe.2, trivial⟩

/-- Witness for C3 at a concrete failing unlock (malformed base64
container). -/
theorem unlock_error_preserves_state_witness :
    (try_login ⟨.passwordInput, "pw", AppData.default, ""⟩
        ⟨some [1], some (.bad "x")⟩ 0).2.1 = ⟨some [1], some (.bad "x")⟩ ∧
    (try_login ⟨.passwordInput, "pw", AppData.default, ""⟩
        ⟨some [1], some (.bad "x")⟩ 0).2.2 = 0 ∧
    (try_login ⟨.passwordInput, "pw", AppData.default, ""⟩
        ⟨some [1], some (.bad "x")⟩ 0).1.password = "" :=
  unlock_error_preserves_state ⟨.passwordInput, "pw", AppData.default, ""⟩
    ⟨some [1], some (.bad "x")⟩ 0 "invalid base64" rfl

/-- C7: a container file whose base64-decoded content is shorter than
the 12-byte nonce is rejected with the malformed-data error before any
decryption is attempted: the result does not depend on the salt file
(which may even be absent), the key is never derived, and the persisted
state is untouched. -/
theorem undersized_container_rejected (bs : List Nat) (password : String)
    (D0 : AppData) (sf : Option (List Nat)) (rng : Nat)
    (h : bs.length < 12) :
    decrypt_data password D0 ⟨sf, some (.b64 (.bytes bs))⟩ rng =
      (.error "Beschädigte Datendatei", D0,
        ⟨sf, some (.b64 (.bytes bs))⟩, rng) := by
  simp [decrypt_data, b64decode, contShort, h]

/-- Witness for C7 at a concrete 3-byte container. -/
theorem undersized_container_rejected_witness :
    decrypt_data "pw" AppData.default
        ⟨none, some (.b64 (.bytes [1, 2, 3]))⟩ 0 =
      (.error "Beschädigte Datendatei", AppData.default,
        ⟨none, some (.b64 (.bytes [1, 2, 3]))⟩, 0) :=
  undersized_container_rejected [1, 2, 3] "pw" AppData.default none 0
    (by decide)

/-- C10: a container whose decoded content is at least 12 bytes but too
short to hold the 16-byte authentication tag (length below 28) passes the
undersized-container check and fails only at authenticated decryption,
surfacing the authentication-failure error `"Falsches Passwort"` rather
than the malformed-container error. -/
theorem short_tag_container_fails_auth (bs : List Nat) (password : String)
    (D0 : AppData) (salt : List Nat) (rng : Nat)
    (h1 : 12 ≤ bs.length) (h2 : bs.length < 28) :
    decrypt_data password D0 ⟨some salt, some (.b64 (.bytes bs))⟩ rng =
      (.error "Falsches Passwort", D0,
        ⟨some salt, some (.b64 (.bytes bs))⟩, rng) := by
  simp [decrypt_data, b64decode, contShort, derive_key, aeadOpen,
    Nat.not_lt.mpr h1]

/-- Witness for C10 at a concrete 12-byte container (nonce only, no tag). -/
theorem short_tag_container_fails_auth_witness :
    decrypt_data "pw" AppData.default
        ⟨some [1], some (.b64 (.bytes (List.replicate 12 0)))⟩ 0 =
      (.error "Falsches Passwort", AppData.default,
        ⟨some [1], some (.b64 (.bytes (List.replicate 12 0)))⟩, 0) :=
  short_tag_container_fails_auth (List.replicate 12 0) "pw" AppData.default
    [1] 0 (by decide) (by decide)

/-- C4 counterexample: two inputs that fail for different reasons do not
yield the same error value. An undersized container (decoded content
empty) fails with `"Beschädigte Datendatei"` (main.rs:175), while a
12-byte container that passes the length check fails authentication with
`"Falsches Passwort"` (main.rs:184) — two distinct error values, so the
error does reveal which check failed. -/
theorem unlock_error_values_differ_counterexample :
    (decrypt_data "pw" AppData.default
        ⟨some [1], some (.b64 (.bytes []))⟩ 0).1 =
      .error "Beschädigte Datendatei" ∧
    (decrypt_data "pw" AppData.default
        ⟨some [1], some (.b64 (.bytes (List.replicate 12 0)))⟩ 0).1 =
      .error "Falsches Passwort" ∧
    ("Beschädigte Datendatei" : String) ≠ "Falsches Passwort" :=
  ⟨rfl, rfl, by decide⟩

/-- C4 amended: every unlock failure kind surfaces to the caller through
the same error channel (an `Err` of the single string-typed error, never
a decoded document), but the error value is not uniform across failure
kinds: the undersized-container check and the authentication check
return distinct hard-coded messages. -/
theorem unlock_failures_same_channel_distinct_messages
    (bs1 bs2 : List Nat) (password : String) (D0 : AppData)
    (salt : List Nat) (rng : Nat)
    (h1 : bs1.length < 12) (h2 : 12 ≤ bs2.length) :
    (decrypt_data password D0
        ⟨some salt, some (.b64 (.bytes bs1))⟩ rng).1 =
      .error "Beschädigte Datendatei" ∧
    (decrypt_data password D0
        ⟨some salt, some (.b64 (.bytes bs2))⟩ rng).1 =
      .error "Falsches Passwort" ∧
    ("Beschädigte Datendatei" : String) ≠ "Falsches Passwort" := by
  refine ⟨?_, ?_, by decide⟩
  · simp [decrypt_data, b64decode, contShort, h1]
  · simp [decrypt_data, b64decode, contShort, derive_key, aeadOpen,
      Nat.not_lt.mpr h2]

/-- Witness for the amended C4 at concrete containers. -/
theorem unlock_failures_same_channel_distinct_messages_witness :
    (decrypt_data "pw" AppData.default
        ⟨some [2], some (.b64 (.bytes [9]))⟩ 3).1 =
      .error "Beschädigte Datendatei" ∧
    (decrypt_data "pw" AppData.default
        ⟨some [2], some (.b64 (.bytes (List.replicate 13 7)))⟩ 3).1 =
      .error "Falsches Passwort" ∧
    ("Beschädigte Datendatei" : String) ≠ "Falsches Passwort" :=
  unlock_failures_same_channel_distinct_messages [9] (List.replicate 13 7)
    "pw" AppData.default [2] 3 (by decide) (by decide)

/-- C5: unlocking when no container file exists returns the empty
document without error and persists a container and salt file encrypted
under the supplied password; a second unlock with the same password on
the resulting store again returns the empty document without error. -/
theorem first_run_unlock (password : String) (D0 D1 : AppData) (fs : Fs)
    (rng : Nat) (h : fs.encFile = none) :
    (decrypt_data password D0 fs rng).1 = .ok () ∧
    (decrypt_data password D0 fs rng).2.1 = AppData.default ∧
    ((decrypt_data password D0 fs rng).2.2.1).encFile.isSome ∧
    ((decrypt_data password D0 fs rng).2.2.1).saltFile.isSome ∧
    (decrypt_data password D1 (decrypt_data password D0 fs rng).2.2.1
        (decrypt_data password D0 fs rng).2.2.2).1 = .ok () ∧
    (decrypt_data password D1 (decrypt_data password D0 fs rng).2.2.1
        (decrypt_data password D0 fs rng).2.2.2).2.1 = AppData.default := by
  obtain ⟨sf, ef⟩ := fs
  subst h
  have hfirst : ∀ s : List Nat,
      decrypt_data password D0 ⟨some s, none⟩ rng =
        (.ok (), AppData.default,
          ⟨some s, some (.b64 (.enc ⟨password, s⟩ rng (.ofData AppData.default)))⟩,
          rng + 1) := by
    intro s
    simp [decrypt_data, encrypt_data_eq_of_salt, Except.map]
  cases sf with
  | some s =>
      rw [hfirst]
      simp [decrypt_data_eq_of_match]
  | none =>
      have hfirst0 : decrypt_data password D0 ⟨none, none⟩ rng =
          (.ok (), AppData.default,
            ⟨some (genSalt rng),
              some (.b64 (.enc ⟨password, genSalt rng⟩ (rng + 1)
                (.ofData AppData.default)))⟩, rng + 2) := by
        simp [decrypt_data, encrypt_data_eq_of_no_salt, Except.map]
      rw [hfirst0]
      simp [decrypt_data_eq_of_match]

/-- Witness for C5 on the empty store. -/
theorem first_run_unlock_witness :
    (decrypt_data "pw" AppData.default ⟨none, none⟩ 0).1 = .ok () ∧
    (decrypt_data "pw" AppData.default ⟨none, none⟩ 0).2.1 = AppData.default ∧
    ((decrypt_data "pw" AppData.default ⟨none, none⟩ 0).2.2.1).encFile.isSome ∧
    ((decrypt_data "pw" AppData.default ⟨none, none⟩ 0).2.2.1).saltFile.isSome ∧
    (decrypt_data "pw" AppData.default
        (decrypt_data "pw" AppData.default ⟨none, none⟩ 0).2.2.1
        (decrypt_data "pw" AppData.default ⟨none, none⟩ 0).2.2.2).1 = .ok () ∧
    (decrypt_data "pw" AppData.default
        (decrypt_data "pw" AppData.default ⟨none, none⟩ 0).2.2.1
        (decrypt_data "pw" AppData.default ⟨none, none⟩ 0).2.2.2).2.1 =
      AppData.default :=
  first_run_unlock "pw" AppData.default AppData.default ⟨none, none⟩ 0 rfl

/-- C6: once the salt file exists, its contents are identical before and
after any number of `save` (`encrypt_data`) calls, for every sequence of
documents and passwords: save reads the existing salt and never rewrites
or regenerates it. -/
theorem salt_stable_under_saves (ops : List (AppData × String)) (fs : Fs)
    (rng : Nat) (s : List Nat) (h : fs.saltFile = some s) :
    ((saveSeq ops fs rng).1).saltFile = some s := by
  induction ops generalizing fs rng with
  | nil => simpa [saveSeq] using h
  | cons op rest ih =>
      obtain ⟨d, p⟩ := op
      exact ih _ _ (encrypt_data_salt_frame d p fs rng s h)

/-- Witness for C6: two saves keep the concrete salt `[5]` intact. -/
theorem salt_stable_under_saves_witness :
    ((saveSeq [(AppData.default, "a"), (⟨[("k", "v")]⟩, "b")]
        ⟨some [5], none⟩ 0).1).saltFile = some [5] :=
  salt_stable_under_saves [(AppData.default, "a"), (⟨[("k", "v")]⟩, "b")]
    ⟨some [5], none⟩ 0 [5] rfl

/-- C8: inserting `(k, v1)` and then `(k, v2)` (via `HashMap::insert` as
used by `add_new_entry` and the editor) leaves exactly one entry for `k`,
whose value is `v2`; removing a key `m` not present in the document
leaves the document unchanged and is not an error. -/
theorem insert_overwrites_and_remove_missing_noop (d : AppData)
    (k v1 v2 m : String) (hm : ∀ p ∈ d.items, p.1 ≠ m) :
    (mapInsert (mapInsert d.items k v1) k v2).countP
      (fun p => p.1 = k) = 1 ∧
    mapGet (mapInsert (mapInsert d.items k v1) k v2) k = some v2 ∧
    remove_entry d m = d := by
  refine ⟨?_, ?_, ?_⟩
  · simp [mapInsert, List.filter_filter, List.countP_cons]
  · simp [mapGet, mapInsert]
  · show AppData.mk (mapRemove d.items m) = d
    have hself : mapRemove d.items m = d.items := by
      rw [mapRemove, List.filter_eq_self]
      intro p hp
      simpa using hm p hp
    rw [hself]

/-- Witness for C8: overwrite `"k"` in a one-entry document and remove
the absent key `"missing"`. -/
theorem insert_overwrites_and_remove_missing_noop_witness :
    (mapInsert (mapInsert (AppData.mk [("a", "0")]).items "k" "v1") "k" "v2").countP
      (fun p => p.1 = "k") = 1 ∧
    mapGet (mapInsert (mapInsert (AppData.mk [("a", "0")]).items "k" "v1") "k" "v2")
      "k" = some "v2" ∧
    remove_entry ⟨[("a", "0")]⟩ "missing" = ⟨[("a", "0")]⟩ :=
  insert_overwrites_and_remove_missing_noop ⟨[("a", "0")]⟩ "k" "v1" "v2"
    "missing" (by decide)

/-- C9: every mutation preserves the invariant that every key present in
the document is non-empty after trimming: `add_new_entry` only accepts
keys with non-empty trim (and otherwise leaves everything unchanged),
the editor's value edit re-inserts an existing key, and removal only
drops entries. -/
theorem mutations_preserve_key_invariant (s : AddFormSt) (d : AppData)
    (k v : String) (hs : keysTrimNonempty s.data) (hd : keysTrimNonempty d)
    (hk : k ∈ d.items.map Prod.fst) :
    keysTrimNonempty (add_new_entry s).data ∧
    keysTrimNonempty (edit_entry_value d k v) ∧
    keysTrimNonempty (remove_entry d k) ∧
    ((rustTrim s.new_key).isEmpty → add_new_entry s = s) := by
  refine ⟨?_, ?_, ?_, ?_⟩
  · by_cases hg : (rustTrim s.new_key).isEmpty
    · simpa [add_new_entry, hg] using hs
    · intro p hp
      simp only [add_new_entry, hg, not_false_eq_true, if_true,
        mapInsert] at hp
      rcases List.mem_cons.mp hp with h1 | h2
      · subst h1
        simpa using hg
      · exact hs p (List.mem_filter.mp h2).1
  · intro p hp
    rcases List.mem_cons.mp hp with h1 | h2
    · rcases List.mem_map.mp hk with ⟨q, hq, hqk⟩
      have hq1 := hd q hq
      rw [hqk] at hq1
      subst h1
      simpa using hq1
    · exact hd p (List.mem_filter.mp h2).1
  · intro p hp
    exact hd p (List.mem_filter.mp hp).1
  · intro hg
    simp [add_new_entry, hg]

/-- Witness for C9 at a concrete form state and document. -/
theorem mutations_preserve_key_invariant_witness :
    keysTrimNonempty (add_new_entry ⟨⟨[("a", "0")]⟩, "b", "1"⟩).data ∧
    keysTrimNonempty (edit_entry_value ⟨[("a", "0")]⟩ "a" "2") ∧
    keysTrimNonempty (remove_entry ⟨[("a", "0")]⟩ "a") ∧
    ((rustTrim " ").isEmpty →
      add_new_entry ⟨⟨[("a", "0")]⟩, " ", "1"⟩ = ⟨⟨[("a", "0")]⟩, " ", "1"⟩) := by
  have h1 := mutations_preserve_key_invariant ⟨⟨[("a", "0")]⟩, "b", "1"⟩
    ⟨[("a", "0")]⟩ "a" "2" (by decide) (by decide) (by decide)
  have h2 := mutations_preserve_key_invariant ⟨⟨[("a", "0")]⟩, " ", "1"⟩
    ⟨[("a", "0")]⟩ "a" "2" (by decide) (by decide) (by decide)
  exact ⟨h1.1, h1.2.1, h1.2.2.1, h2.2.2.2⟩
